import Mathlib

/-!
# Byte-the-dealer: verification of the wire codec and round state machine

This file is a shallow embedding, in Lean 4, of the core of the
Byte-the-dealer Blackjack client/server repository:

* `constants.py` — protocol constants and `get_card_value`;
* `protocol.py`  — the binary wire codec (offer, request, client payload,
  server payload messages);
* `server.py`    — the `Deck` and the `BlackjackGame.play_round` round state
  machine.

Byte strings are modelled as `List Nat` (each element a byte value `< 256`);
text names travel on the wire as their UTF-8 byte sequences, so names are
modelled directly as byte lists.  Python's `struct` big-endian fields are
modelled with explicit `/ 256` / `% 256` arithmetic.  Fallible decoding is
modelled with `Option`.
-/

namespace ByteDealer

/-! ## Constants (`constants.py`) -/

/-- Magic cookie prefixed to every message (`MAGIC_COOKIE = 0xabcddcba`). -/
def MAGIC_COOKIE : Nat := 0xabcddcba

/-- Offer message type byte (`MSG_TYPE_OFFER = 0x2`). -/
def MSG_TYPE_OFFER : Nat := 0x2

/-- Request message type byte (`MSG_TYPE_REQUEST = 0x3`). -/
def MSG_TYPE_REQUEST : Nat := 0x3

/-- Payload message type byte (`MSG_TYPE_PAYLOAD = 0x4`). -/
def MSG_TYPE_PAYLOAD : Nat := 0x4

/-- Result code `RESULT_ROUND_NOT_OVER = 0x0`. -/
def RESULT_ROUND_NOT_OVER : Nat := 0x0

/-- Result code `RESULT_TIE = 0x1`. -/
def RESULT_TIE : Nat := 0x1

/-- Result code `RESULT_LOSS = 0x2`. -/
def RESULT_LOSS : Nat := 0x2

/-- Result code `RESULT_WIN = 0x3`. -/
def RESULT_WIN : Nat := 0x3

/-- The 5-byte hit action token `ACTION_HIT = b"Hittt"` (ASCII codes). -/
def ACTION_HIT : List Nat := [72, 105, 116, 116, 116]

/-- The 5-byte stand action token `ACTION_STAND = b"Stand"` (ASCII codes). -/
def ACTION_STAND : List Nat := [83, 116, 97, 110, 100]

/-- Name field length in bytes (`NAME_LENGTH = 32`). -/
def NAME_LENGTH : Nat := 32

/-- Suit characters `SUITS = ['H', 'D', 'C', 'S']` as ASCII byte values. -/
def SUITS : List Nat := [72, 68, 67, 83]

/-- Blackjack value of a card rank (`get_card_value` in `constants.py`):
Ace (1) is 11, J/Q/K (>= 11) are 10, number cards are their face value. -/
def get_card_value (rank : Nat) : Nat :=
  if rank = 1 then 11 else if 11 ≤ rank then 10 else rank

/-! ## Wire codec (`protocol.py`)

Fixed sizes come from `struct.calcsize` of the format strings:
offer `>I B H 32s` is 39 bytes, request `>I B B 32s` is 38 bytes,
client payload `>I B 5s` is 10 bytes, server payload `>I B B 2s 1s` is
9 bytes. -/

/-- Offer message size in bytes. -/
def OFFER_SIZE : Nat := 39

/-- Request message size in bytes. -/
def REQUEST_SIZE : Nat := 38

/-- Client payload message size in bytes. -/
def CLIENT_PAYLOAD_SIZE : Nat := 10

/-- Server payload message size in bytes. -/
def SERVER_PAYLOAD_SIZE : Nat := 9

/-- Pad or truncate a name (UTF-8 byte sequence) to exactly `NAME_LENGTH`
bytes, padding with null bytes (`pad_name` in `protocol.py`). -/
def pad_name (name : List Nat) : List Nat :=
  name.take NAME_LENGTH ++ List.replicate (NAME_LENGTH - (name.take NAME_LENGTH).length) 0

/-- Strip trailing null bytes from a name field (`unpad_name`; the source
additionally decodes the bytes as UTF-8 with errors ignored, which is the
identity on the byte sequences we model names as). -/
def unpad_name (name_bytes : List Nat) : List Nat :=
  (name_bytes.reverse.dropWhile (fun b => b == 0)).reverse

/-- Big-endian 4-byte encoding of a 32-bit value (struct `>I`). -/
def u32be (n : Nat) : List Nat :=
  [n / 16777216 % 256, n / 65536 % 256, n / 256 % 256, n % 256]

/-- Big-endian 2-byte encoding of a 16-bit value (struct `>H`). -/
def u16be (n : Nat) : List Nat :=
  [n / 256 % 256, n % 256]

/-- Big-endian 32-bit value of the first four bytes of a buffer
(struct `>I` decoding). -/
def bytesToNat32 (data : List Nat) : Nat :=
  data.getD 0 0 * 16777216 + data.getD 1 0 * 65536 + data.getD 2 0 * 256 + data.getD 3 0

/-- Pack an offer message: magic, type `0x2`, 2-byte TCP port, 32-byte
padded server name (`pack_offer`). -/
def pack_offer (tcp_port : Nat) (server_name : List Nat) : List Nat :=
  u32be MAGIC_COOKIE ++ [MSG_TYPE_OFFER] ++ u16be tcp_port ++ pad_name server_name

/-- Unpack an offer message (`unpack_offer`): `none` on short input, bad
magic, or bad type; otherwise the port and the unpadded name. -/
def unpack_offer (data : List Nat) : Option (Nat × List Nat) :=
  if data.length < OFFER_SIZE then none
  else if bytesToNat32 data ≠ MAGIC_COOKIE then none
  else if data.getD 4 0 ≠ MSG_TYPE_OFFER then none
  else some (data.getD 5 0 * 256 + data.getD 6 0, unpad_name ((data.take OFFER_SIZE).drop 7))

/-- Pack a request message: magic, type `0x3`, 1-byte round count, 32-byte
padded client name (`pack_request`; struct `B` requires `num_rounds < 256`,
modelled with `% 256`). -/
def pack_request (num_rounds : Nat) (client_name : List Nat) : List Nat :=
  u32be MAGIC_COOKIE ++ [MSG_TYPE_REQUEST] ++ [num_rounds % 256] ++ pad_name client_name

/-- Unpack a request message (`unpack_request`). -/
def unpack_request (data : List Nat) : Option (Nat × List Nat) :=
  if data.length < REQUEST_SIZE then none
  else if bytesToNat32 data ≠ MAGIC_COOKIE then none
  else if data.getD 4 0 ≠ MSG_TYPE_REQUEST then none
  else some (data.getD 5 0, unpad_name ((data.take REQUEST_SIZE).drop 6))

/-- Python's `str.lower` restricted to the ASCII range, as used by
`pack_client_payload` on the action string. -/
def pyLower (s : String) : String :=
  String.mk (s.data.map Char.toLower)

/-- Pack a client payload (`pack_client_payload`): the `ACTION_HIT` token
when the lowercased action is exactly `"hit"`, the `ACTION_STAND` token
otherwise; there is no error branch. -/
def pack_client_payload (action : String) : List Nat :=
  u32be MAGIC_COOKIE ++ [MSG_TYPE_PAYLOAD] ++
    (if pyLower action = "hit" then ACTION_HIT else ACTION_STAND)

/-- Unpack a client payload (`unpack_client_payload`): `"hit"` or `"stand"`
for the two exact tokens, `none` otherwise. -/
def unpack_client_payload (data : List Nat) : Option String :=
  if data.length < CLIENT_PAYLOAD_SIZE then none
  else if bytesToNat32 data ≠ MAGIC_COOKIE then none
  else if data.getD 4 0 ≠ MSG_TYPE_PAYLOAD then none
  else
    if (data.take CLIENT_PAYLOAD_SIZE).drop 5 = ACTION_HIT then some "hit"
    else if (data.take CLIENT_PAYLOAD_SIZE).drop 5 = ACTION_STAND then some "stand"
    else none

/-- The 2-byte rank field of a server payload: `f"{card_rank:02d}"` encoded
to ASCII, then truncated by struct `2s` to the first two bytes (relevant
only above 99; zero-padded two-digit decimal below 100). -/
def rankField (rank : Nat) : List Nat :=
  if rank < 100 then [48 + rank / 10, 48 + rank % 10]
  else ((Nat.toDigits 10 rank).map Char.toNat).take 2

/-- Pack a server payload (`pack_server_payload` with a suit character
argument): magic, type `0x4`, result byte, 2-byte ASCII rank, suit byte. -/
def pack_server_payload (result rank suitByte : Nat) : List Nat :=
  u32be MAGIC_COOKIE ++ [MSG_TYPE_PAYLOAD] ++ [result % 256] ++ rankField rank ++ [suitByte]

/-- Pack a server payload given a suit index 0..3 (`pack_server_payload`
with an `int` suit looks the character up in `SUITS`). -/
def pack_server_payload_idx (result rank suitIdx : Nat) : List Nat :=
  pack_server_payload result rank (SUITS.getD suitIdx 0)

/-- Whether a byte is an ASCII digit. -/
def isDigitByte (b : Nat) : Bool := 48 ≤ b && b ≤ 57

/-- Whether a byte is whitespace for Python's `int()` parser (the ASCII
part of `Py_UNICODE_ISSPACE`: TAB..CR, FS..US, SPACE). -/
def isPySpaceByte (b : Nat) : Bool := (9 ≤ b && b ≤ 13) || (28 ≤ b && b ≤ 31) || b == 32

/-- Python's `int(rank_bytes.decode('ascii'))` on the two rank bytes of a
server payload: both bytes must be ASCII, and the two-character string must
be an optionally signed / whitespace-padded decimal.  With exactly two
characters the accepted forms are two digits, or sign/whitespace plus one
digit, or one digit plus whitespace.  Any other input raises
`ValueError`/`UnicodeDecodeError` in the source, modelled as `none`. -/
def parseRank2 (a b : Nat) : Option Int :=
  if isDigitByte a && isDigitByte b then some ((10 * (a - 48) + (b - 48) : Nat) : Int)
  else if (isPySpaceByte a || a == 43) && isDigitByte b then some ((b - 48 : Nat) : Int)
  else if a == 45 && isDigitByte b then some (-((b - 48 : Nat) : Int))
  else if isDigitByte a && isPySpaceByte b then some ((a - 48 : Nat) : Int)
  else none

/-- Unpack a server payload (`unpack_server_payload`): `none` on short
input, bad magic, bad type, a rank field that `int()` cannot parse, or a
non-ASCII suit byte; otherwise the result code, the parsed rank (an
integer: `int()` also accepts signed forms), and the suit byte. -/
def unpack_server_payload (data : List Nat) : Option (Nat × Int × Nat) :=
  if data.length < SERVER_PAYLOAD_SIZE then none
  else if bytesToNat32 data ≠ MAGIC_COOKIE then none
  else if data.getD 4 0 ≠ MSG_TYPE_PAYLOAD then none
  else
    match parseRank2 (data.getD 6 0) (data.getD 7 0) with
    | none => none
    | some rank =>
      if 128 ≤ data.getD 8 0 then none
      else some (data.getD 5 0, rank, data.getD 8 0)

/-! ## Deck and game model (`server.py`)

A card is a `(rank, suit index)` pair, rank 1..13 and suit 0..3, exactly as
built by `Deck.reset`.  `random.shuffle` is an external source of a uniformly
random permutation, so shuffled decks are modelled as arbitrary lists known
to be permutations of the full 52-card list.  `list.pop()` removes the last
element, and `Deck.draw` on an empty deck first resets: the reshuffled deck
an implicit reset would produce is passed in as the `fresh` parameter. -/

/-- A card: rank and suit index, as stored in `Deck.cards`. -/
abbrev Card := Nat × Nat

/-- The full 52-card list built by `Deck.reset` before shuffling:
`[(rank, suit) for rank in range(1, 14) for suit in range(4)]`. -/
def fullDeck : List Card :=
  (List.range' 1 13).flatMap (fun rank => (List.range 4).map (fun suit => (rank, suit)))

/-- Remove and return the last element of a list (`list.pop()`). -/
def popLast (l : List Card) : Option (Card × List Card) :=
  l.getLast?.map (fun c => (c, l.dropLast))

/-- Draw a card (`Deck.draw`): pop the last card, first replacing an empty
deck with the reshuffled deck `fresh` that the implicit `reset()` produces.
`none` only in the unreachable case of `fresh` itself being empty. -/
def drawCard (fresh deck : List Card) : Option (Card × List Card) :=
  if deck.isEmpty then popLast fresh else popLast deck

/-- The first `n` draws from a deck, with their final deck state
(iterated `Deck.draw`; stops early only if a draw fails). -/
def drawN (fresh : List Card) : Nat → List Card → List Card × List Card
  | 0, deck => ([], deck)
  | n + 1, deck =>
    match drawCard fresh deck with
    | none => ([], deck)
    | some (c, deck') =>
      let p := drawN fresh n deck'
      (c :: p.1, p.2)

/-- Sum of the blackjack values of a hand (`BlackjackGame.calculate_sum`). -/
def calculate_sum (cards : List Card) : Nat :=
  (cards.map (fun c => get_card_value c.1)).sum

/-- A message sent by `BlackjackGame.send_card`, modelled as the
`(result, rank, suit character)` triple handed to `pack_server_payload`
(deck cards carry suit indices, looked up in `SUITS`). -/
abbrev Msg := Nat × Nat × Nat

/-- The message `send_card(card, result)` produces for a deck card. -/
def msgOfCard (result : Nat) (c : Card) : Msg :=
  (result, c.1, SUITS.getD c.2 0)

/-- How the player-turn loop of `play_round` ended. -/
inductive PStatus
  /-- The loop exited without a bust (stand, or total already at least 21):
  play proceeds to the dealer turn. -/
  | toDealer
  /-- The player busted: `play_round` returns `"loss"` immediately. -/
  | bust
  /-- `receive_action` yielded `None` (or, in the model, the action supply
  or deck ran out): `play_round` returns `None`. -/
  | aborted
deriving DecidableEq

/-- State after the player-turn loop: status, remaining deck, the player's
cards, the messages sent by the loop, and the client actions not consumed. -/
structure PState where
  status : PStatus
  deck : List Card
  pcards : List Card
  msgs : List Msg
  rem : List (Option String)
deriving DecidableEq

/-- The player-turn loop of `play_round` (`while self.player_sum < 21`).
Each iteration receives one client action (`receive_action` returns
`"hit"`, `"stand"` or `None`, modelled by the `acts` list; an exhausted
list models a connection that never delivers another action).  On `"stand"`
it sends the no-card sentinel `(RESULT_ROUND_NOT_OVER, (0, 'H'))` and exits;
on `"hit"` it draws, recomputes the total over all the player's cards, and
either busts (sends the card tagged `RESULT_LOSS`) or continues (sends it
tagged `RESULT_ROUND_NOT_OVER`); any other string falls through the
`if`/`elif` chain and the loop solicits the next action. -/
def playerLoop (fresh : List Card) :
    List (Option String) → List Card → List Card → PState
  | acts, deck, pcards =>
    if calculate_sum pcards < 21 then
      match acts with
      | [] => ⟨.aborted, deck, pcards, [], []⟩
      | none :: rest => ⟨.aborted, deck, pcards, [], rest⟩
      | some a :: rest =>
        if a = "stand" then
          ⟨.toDealer, deck, pcards, [(RESULT_ROUND_NOT_OVER, 0, 72)], rest⟩
        else if a = "hit" then
          match drawCard fresh deck with
          | none => ⟨.aborted, deck, pcards, [], rest⟩
          | some (c, deck') =>
            if 21 < calculate_sum (pcards ++ [c]) then
              ⟨.bust, deck', pcards ++ [c], [msgOfCard RESULT_LOSS c], rest⟩
            else
              let s := playerLoop fresh rest deck' (pcards ++ [c])
              ⟨s.status, s.deck, s.pcards, msgOfCard RESULT_ROUND_NOT_OVER c :: s.msgs, s.rem⟩
        else
          playerLoop fresh rest deck pcards
    else ⟨.toDealer, deck, pcards, [], acts⟩

/-- State after the dealer-draw loop: whether it completed (`ok = false`
models the unreachable draw failure or insufficient fuel), the remaining
deck, the dealer's cards and the messages sent. -/
structure DState where
  ok : Bool
  deck : List Card
  dcards : List Card
  msgs : List Msg
deriving DecidableEq

/-- The dealer-draw loop of `play_round` (`while self.dealer_sum < 17`):
draw one card at a time, sending each tagged `RESULT_ROUND_NOT_OVER`, until
the dealer total reaches 17.  The Python loop has no built-in bound, so the
model carries a fuel counter; the termination theorem shows any fuel with
`17 ≤ total + 2 * fuel` suffices, because every card is worth at least 2. -/
def dealerLoop (fresh : List Card) : Nat → List Card → List Card → DState
  | fuel, deck, dcards =>
    if calculate_sum dcards < 17 then
      match fuel with
      | 0 => ⟨false, deck, dcards, []⟩
      | fuel' + 1 =>
        match drawCard fresh deck with
        | none => ⟨false, deck, dcards, []⟩
        | some (c, deck') =>
          let s := dealerLoop fresh fuel' deck' (dcards ++ [c])
          ⟨s.ok, s.deck, s.dcards, msgOfCard RESULT_ROUND_NOT_OVER c :: s.msgs⟩
    else ⟨true, deck, dcards, []⟩

/-- The four initial draws of `play_round`: two player cards then two
dealer cards (the second dealer card is the hole card). -/
def draw4 (fresh deck : List Card) :
    Option (Card × Card × Card × Card × List Card) :=
  match drawCard fresh deck with
  | none => none
  | some (c1, e1) =>
    match drawCard fresh e1 with
    | none => none
    | some (c2, e2) =>
      match drawCard fresh e2 with
      | none => none
      | some (d1, e3) =>
        match drawCard fresh e3 with
        | none => none
        | some (d2, e4) => some (c1, c2, d1, d2, e4)

/-- Outcome of one round: the value `play_round` returns (`"win"`,
`"loss"`, `"tie"`, or `None` for an aborted round), the Server Payload
messages sent, the final player and dealer hands, and the unconsumed
client actions. -/
structure RoundOut where
  result : Option String
  msgs : List Msg
  pcards : List Card
  dcards : List Card
  rem : List (Option String)
deriving DecidableEq

/-- One round of Blackjack (`BlackjackGame.play_round`).  `deck` is the
freshly shuffled deck the round's opening `self.deck.reset()` installed;
`fresh` is the reshuffle an implicit mid-round reset would produce; `fuel`
bounds the dealer loop (see `dealerLoop`).  Deal two player cards and two
dealer cards, send the player cards and the first dealer card, run the
player turn; on a bust return `"loss"` at once; otherwise reveal the hole
card, run the dealer loop, compare totals exactly as the source
(`dealer > 21` win, else `player > dealer` win, else `dealer > player`
loss, else tie) and send the final no-card message with the result code. -/
def playRound (fresh deck : List Card) (acts : List (Option String)) (fuel : Nat) : RoundOut :=
  match draw4 fresh deck with
  | none => ⟨none, [], [], [], acts⟩
  | some (c1, c2, d1, d2, deck1) =>
    let initMsgs := [msgOfCard RESULT_ROUND_NOT_OVER c1, msgOfCard RESULT_ROUND_NOT_OVER c2,
      msgOfCard RESULT_ROUND_NOT_OVER d1]
    let ps := playerLoop fresh acts deck1 [c1, c2]
    match ps.status with
    | .aborted => ⟨none, initMsgs ++ ps.msgs, ps.pcards, [d1, d2], ps.rem⟩
    | .bust => ⟨some "loss", initMsgs ++ ps.msgs, ps.pcards, [d1, d2], ps.rem⟩
    | .toDealer =>
      let ds := dealerLoop fresh fuel ps.deck [d1, d2]
      if ds.ok then
        let p := calculate_sum ps.pcards
        let d := calculate_sum ds.dcards
        ⟨some (if 21 < d then "win" else if d < p then "win" else if p < d then "loss" else "tie"),
         initMsgs ++ ps.msgs ++ [msgOfCard RESULT_ROUND_NOT_OVER d2] ++ ds.msgs ++
           [(if 21 < d then RESULT_WIN else if d < p then RESULT_WIN
             else if p < d then RESULT_LOSS else RESULT_TIE, 0, 72)],
         ps.pcards, ds.dcards, ps.rem⟩
      else
        ⟨none, initMsgs ++ ps.msgs ++ [msgOfCard RESULT_ROUND_NOT_OVER d2] ++ ds.msgs,
         ps.pcards, ds.dcards, ps.rem⟩

/-! ## Codec helper lemmas -/

/-- A name as the codec's callers supply it: at most `NAME_LENGTH` UTF-8
bytes and no trailing null byte (null padding is what decoding strips). -/
def GoodName (name : List Nat) : Prop :=
  name.length ≤ NAME_LENGTH ∧ name.getLast? ≠ some 0

instance (name : List Nat) : Decidable (GoodName name) := by
  unfold GoodName; infer_instance

lemma pad_name_length (name : List Nat) : (pad_name name).length = NAME_LENGTH := by
  simp [pad_name, NAME_LENGTH]

lemma pad_name_eq_of_le (name : List Nat) (h : name.length ≤ NAME_LENGTH) :
    pad_name name = name ++ List.replicate (NAME_LENGTH - name.length) 0 := by
  rw [pad_name, List.take_of_length_le h]

lemma dropWhileZero_replicate (k : Nat) (l : List Nat) :
    List.dropWhile (fun b => b == 0) (List.replicate k 0 ++ l)
      = List.dropWhile (fun b => b == 0) l := by
  induction k with
  | zero => simp
  | succ k ih => simp [List.replicate_succ, List.dropWhile_cons, ih]

lemma unpad_pad (name : List Nat) (hlen : name.length ≤ NAME_LENGTH)
    (hlast : name.getLast? ≠ some 0) : unpad_name (pad_name name) = name := by
  rw [pad_name_eq_of_le name hlen, unpad_name, List.reverse_append, List.reverse_replicate,
    dropWhileZero_replicate]
  cases hrev : name.reverse with
  | nil => simpa using congrArg List.reverse hrev
  | cons x t =>
    have hx : name.getLast? = some x := by
      rw [← List.head?_reverse, hrev, List.head?_cons]
    have hxne : (x == 0) = false := by
      simp only [beq_eq_false_iff_ne, ne_eq]
      intro h0
      exact hlast (h0 ▸ hx)
    rw [List.dropWhile_cons, hxne]
    simpa using (congrArg List.reverse hrev).symm

lemma unpack_pack_request (r : Nat) (name : List Nat) (hr : r < 256)
    (h1 : name.length ≤ NAME_LENGTH) (h2 : name.getLast? ≠ some 0) :
    unpack_request (pack_request r name) = some (r, name) := by
  have hpack : pack_request r name
      = 171 :: 205 :: 220 :: 186 :: 3 :: (r % 256) :: pad_name name := by
    simp [pack_request, u32be, MAGIC_COOKIE, MSG_TYPE_REQUEST]
  have hlen : (pack_request r name).length = 38 := by
    rw [hpack]; simp [pad_name_length, NAME_LENGTH]
  have htake : (pack_request r name).take REQUEST_SIZE = pack_request r name := by
    apply List.take_of_length_le; rw [hlen]; rfl
  rw [unpack_request, if_neg (by rw [hlen]; simp [REQUEST_SIZE]), htake, hpack]
  rw [if_neg (by norm_num [bytesToNat32, MAGIC_COOKIE]),
    if_neg (by norm_num [MSG_TYPE_REQUEST])]
  simp [Nat.mod_eq_of_lt hr, unpad_pad name h1 h2]

lemma unpack_pack_offer (p : Nat) (name : List Nat) (hp : p < 65536)
    (h1 : name.length ≤ NAME_LENGTH) (h2 : name.getLast? ≠ some 0) :
    unpack_offer (pack_offer p name) = some (p, name) := by
  have hpack : pack_offer p name
      = 171 :: 205 :: 220 :: 186 :: 2 :: (p / 256 % 256) :: (p % 256) :: pad_name name := by
    simp [pack_offer, u32be, u16be, MAGIC_COOKIE, MSG_TYPE_OFFER]
  have hlen : (pack_offer p name).length = 39 := by
    rw [hpack]; simp [pad_name_length, NAME_LENGTH]
  have htake : (pack_offer p name).take OFFER_SIZE = pack_offer p name := by
    apply List.take_of_length_le; rw [hlen]; rfl
  rw [unpack_offer, if_neg (by rw [hlen]; simp [OFFER_SIZE]), htake, hpack]
  rw [if_neg (by norm_num [bytesToNat32, MAGIC_COOKIE]),
    if_neg (by norm_num [MSG_TYPE_OFFER])]
  have hport : p / 256 % 256 * 256 + p % 256 = p := by omega
  simp [hport, unpad_pad name h1 h2]

lemma unpack_pack_server (result rank s : Nat) (hres : result < 256)
    (h1 : 1 ≤ rank) (h2 : rank ≤ 13) (hs : s < 128) :
    unpack_server_payload (pack_server_payload result rank s)
      = some (result, (rank : Int), s) := by
  have hrf : rankField rank = [48 + rank / 10, 48 + rank % 10] := by
    rw [rankField, if_pos (by omega)]
  have hpack : pack_server_payload result rank s
      = 171 :: 205 :: 220 :: 186 :: 4 :: (result % 256)
          :: (48 + rank / 10) :: (48 + rank % 10) :: [s] := by
    simp [pack_server_payload, hrf, u32be, MAGIC_COOKIE, MSG_TYPE_PAYLOAD]
  have hd1 : isDigitByte (48 + rank / 10) = true := by
    simp only [isDigitByte, Bool.and_eq_true, decide_eq_true_eq]; omega
  have hd2 : isDigitByte (48 + rank % 10) = true := by
    simp only [isDigitByte, Bool.and_eq_true, decide_eq_true_eq]; omega
  have hparse : parseRank2 (48 + rank / 10) (48 + rank % 10) = some ((rank : Nat) : Int) := by
    rw [parseRank2, if_pos (by simp [hd1, hd2])]
    congr 1
    have : 10 * (48 + rank / 10 - 48) + (48 + rank % 10 - 48) = rank := by omega
    rw [this]
  rw [unpack_server_payload, hpack]
  rw [if_neg (by norm_num [SERVER_PAYLOAD_SIZE]), if_neg (by norm_num [bytesToNat32, MAGIC_COOKIE]),
    if_neg (by norm_num [MSG_TYPE_PAYLOAD])]
  simp only [List.getD_cons_succ, List.getD_cons_zero]
  rw [hparse]
  simp [Nat.mod_eq_of_lt hres, Nat.not_le.mpr hs]

/-! ## Claim C1 -/

/-- C1: decoding the encoding of a message returns the original message for
every field at its boundary values: requests for `rounds = 1` and
`rounds = 255`, server payloads for every rank 1..13 and each of the 4 suit
characters (and any result byte), client payloads for both action tokens,
and offers for any port, with names of at most 32 UTF-8 bytes that carry no
trailing null byte. -/
theorem C1_roundtrip :
    (∀ rounds name, (rounds = 1 ∨ rounds = 255) → GoodName name →
      unpack_request (pack_request rounds name) = some (rounds, name)) ∧
    (∀ result rank suitB, result < 256 → 1 ≤ rank → rank ≤ 13 → suitB ∈ SUITS →
      unpack_server_payload (pack_server_payload result rank suitB)
        = some (result, (rank : Int), suitB)) ∧
    (unpack_client_payload (pack_client_payload "hit") = some "hit" ∧
      unpack_client_payload (pack_client_payload "stand") = some "stand") ∧
    (∀ port name, port < 65536 → GoodName name →
      unpack_offer (pack_offer port name) = some (port, name)) := by
  refine ⟨?_, ?_, ⟨by decide, by decide⟩, ?_⟩
  · rintro rounds name (rfl | rfl) ⟨h1, h2⟩ <;>
      exact unpack_pack_request _ _ (by norm_num) h1 h2
  · intro result rank suitB hres hr1 hr2 hmem
    have hs : suitB < 128 := by
      have : suitB = 72 ∨ suitB = 68 ∨ suitB = 67 ∨ suitB = 83 := by
        simpa [SUITS] using hmem
      rcases this with rfl | rfl | rfl | rfl <;> norm_num
    exact unpack_pack_server _ _ _ hres hr1 hr2 hs
  · rintro port name hp ⟨h1, h2⟩
    exact unpack_pack_offer _ _ hp h1 h2

/-- Witness for C1 at concrete boundary inputs. -/
theorem C1_roundtrip_witness :
    unpack_request (pack_request 1 [66, 68]) = some (1, [66, 68]) ∧
    unpack_request (pack_request 255 []) = some (255, []) ∧
    unpack_server_payload (pack_server_payload 3 13 72) = some (3, (13 : Int), 72) ∧
    unpack_client_payload (pack_client_payload "hit") = some "hit" ∧
    unpack_offer (pack_offer 13122 [84]) = some (13122, [84]) :=
  ⟨C1_roundtrip.1 1 [66, 68] (Or.inl rfl) (by decide),
   C1_roundtrip.1 255 [] (Or.inr rfl) (by decide),
   C1_roundtrip.2.1 3 13 72 (by norm_num) (by norm_num) (by norm_num) (by decide),
   C1_roundtrip.2.2.1.1,
   C1_roundtrip.2.2.2 13122 [84] (by norm_num) (by decide)⟩

/-! ## Claim C2

The claim as stated is false on the code: `unpack_server_payload` does not
validate the suit byte against the 4 suit symbols (any ASCII byte passes),
and the rank check is Python's `int()` parse, which accepts signed forms
such as `"+5"` that are not 2-digit decimal pairs. -/

/-- C2 counterexample: a server payload with valid magic and type, rank
field `"05"` and suit byte `'X'` (88), which is none of the 4 suit symbols,
decodes to a value instead of `None`; likewise a rank field `"+5"`, which
is not a 2-digit ASCII decimal pair, is accepted. -/
theorem C2_counterexample :
    (unpack_server_payload [171, 205, 220, 186, 4, 0, 48, 53, 88] = some (0, 5, 88) ∧
      88 ∉ SUITS) ∧
    unpack_server_payload [171, 205, 220, 186, 4, 0, 43, 53, 72] = some (0, 5, 72) := by
  decide

/-- C2 amended: every decode function returns `None` on input shorter than
its fixed size, on a magic mismatch, and on a wrong type byte; the client
payload decoder returns `None` for any action field that is neither fixed
token; the server payload decoder returns `None` when the rank field fails
Python's `int()` parse or when the suit byte is not ASCII — but the suit is
not checked against the 4 suit symbols, and any rank field `int()` accepts
(signed or whitespace-padded digits) is accepted. -/
theorem C2_amended :
    (∀ d : List Nat, d.length < OFFER_SIZE → unpack_offer d = none) ∧
    (∀ d : List Nat, d.length < REQUEST_SIZE → unpack_request d = none) ∧
    (∀ d : List Nat, d.length < CLIENT_PAYLOAD_SIZE → unpack_client_payload d = none) ∧
    (∀ d : List Nat, d.length < SERVER_PAYLOAD_SIZE → unpack_server_payload d = none) ∧
    (∀ d : List Nat, bytesToNat32 d ≠ MAGIC_COOKIE →
      unpack_offer d = none ∧ unpack_request d = none ∧
      unpack_client_payload d = none ∧ unpack_server_payload d = none) ∧
    (∀ d : List Nat, bytesToNat32 d = MAGIC_COOKIE →
      (d.getD 4 0 ≠ MSG_TYPE_OFFER → unpack_offer d = none) ∧
      (d.getD 4 0 ≠ MSG_TYPE_REQUEST → unpack_request d = none) ∧
      (d.getD 4 0 ≠ MSG_TYPE_PAYLOAD →
        unpack_client_payload d = none ∧ unpack_server_payload d = none)) ∧
    (∀ tok : List Nat, tok.length = 5 → tok ≠ ACTION_HIT → tok ≠ ACTION_STAND →
      unpack_client_payload ([171, 205, 220, 186, 4] ++ tok) = none) ∧
    (∀ res r0 r1 s rest, parseRank2 r0 r1 = none →
      unpack_server_payload (171 :: 205 :: 220 :: 186 :: 4 :: res :: r0 :: r1 :: s :: rest)
        = none) ∧
    (∀ res r0 r1 s rest, 128 ≤ s →
      unpack_server_payload (171 :: 205 :: 220 :: 186 :: 4 :: res :: r0 :: r1 :: s :: rest)
        = none) := by
  refine ⟨?_, ?_, ?_, ?_, ?_, ?_, ?_, ?_, ?_⟩
  · intro d h; rw [unpack_offer, if_pos h]
  · intro d h; rw [unpack_request, if_pos h]
  · intro d h; rw [unpack_client_payload, if_pos h]
  · intro d h; rw [unpack_server_payload, if_pos h]
  · intro d hm
    refine ⟨?_, ?_, ?_, ?_⟩
    · rw [unpack_offer]; by_cases h1 : d.length < OFFER_SIZE
      · rw [if_pos h1]
      · rw [if_neg h1, if_pos hm]
    · rw [unpack_request]; by_cases h1 : d.length < REQUEST_SIZE
      · rw [if_pos h1]
      · rw [if_neg h1, if_pos hm]
    · rw [unpack_client_payload]; by_cases h1 : d.length < CLIENT_PAYLOAD_SIZE
      · rw [if_pos h1]
      · rw [if_neg h1, if_pos hm]
    · rw [unpack_server_payload]; by_cases h1 : d.length < SERVER_PAYLOAD_SIZE
      · rw [if_pos h1]
      · rw [if_neg h1, if_pos hm]
  · intro d hm
    refine ⟨?_, ?_, ?_⟩
    · intro ht; rw [unpack_offer]; by_cases h1 : d.length < OFFER_SIZE
      · rw [if_pos h1]
      · rw [if_neg h1, if_neg (by simp [hm]), if_pos ht]
    · intro ht; rw [unpack_request]; by_cases h1 : d.length < REQUEST_SIZE
      · rw [if_pos h1]
      · rw [if_neg h1, if_neg (by simp [hm]), if_pos ht]
    · intro ht
      constructor
      · rw [unpack_client_payload]; by_cases h1 : d.length < CLIENT_PAYLOAD_SIZE
        · rw [if_pos h1]
        · rw [if_neg h1, if_neg (by simp [hm]), if_pos ht]
      · rw [unpack_server_payload]; by_cases h1 : d.length < SERVER_PAYLOAD_SIZE
        · rw [if_pos h1]
        · rw [if_neg h1, if_neg (by simp [hm]), if_pos ht]
  · intro tok hlen hh hs
    have hl : ([171, 205, 220, 186, 4] ++ tok).length = 10 := by simp [hlen]
    rw [unpack_client_payload, if_neg (by rw [hl]; norm_num [CLIENT_PAYLOAD_SIZE]),
      if_neg (by norm_num [bytesToNat32, MAGIC_COOKIE]),
      if_neg (by norm_num [MSG_TYPE_PAYLOAD])]
    have htake : ([171, 205, 220, 186, 4] ++ tok).take CLIENT_PAYLOAD_SIZE
        = [171, 205, 220, 186, 4] ++ tok := by
      apply List.take_of_length_le; rw [hl]; rfl
    rw [htake]
    simp only [List.cons_append, List.nil_append, List.drop_succ_cons, List.drop_zero]
    rw [if_neg hh, if_neg hs]
  · intro res r0 r1 s rest hp
    rw [unpack_server_payload,
      if_neg (by simp [SERVER_PAYLOAD_SIZE]),
      if_neg (by norm_num [bytesToNat32, MAGIC_COOKIE]),
      if_neg (by norm_num [MSG_TYPE_PAYLOAD])]
    simp only [List.getD_cons_succ, List.getD_cons_zero]
    rw [hp]
  · intro res r0 r1 s rest hs
    rw [unpack_server_payload,
      if_neg (by simp [SERVER_PAYLOAD_SIZE]),
      if_neg (by norm_num [bytesToNat32, MAGIC_COOKIE]),
      if_neg (by norm_num [MSG_TYPE_PAYLOAD])]
    simp only [List.getD_cons_succ, List.getD_cons_zero]
    cases parseRank2 r0 r1 with
    | none => rfl
    | some v => simp [hs]

/-- Witness for the amended C2 at concrete inputs. -/
theorem C2_amended_witness :
    unpack_offer [171, 205] = none ∧
    unpack_request [] = none ∧
    unpack_client_payload [171] = none ∧
    unpack_server_payload [1, 2, 3] = none ∧
    unpack_request (List.replicate 38 0) = none ∧
    unpack_offer (171 :: 205 :: 220 :: 186 :: 9 :: List.replicate 34 0) = none ∧
    unpack_client_payload ([171, 205, 220, 186, 4] ++ [88, 88, 88, 88, 88]) = none ∧
    unpack_server_payload [171, 205, 220, 186, 4, 0, 88, 88, 72] = none ∧
    unpack_server_payload [171, 205, 220, 186, 4, 0, 48, 53, 200] = none :=
  ⟨C2_amended.1 _ (by decide),
   C2_amended.2.1 _ (by decide),
   C2_amended.2.2.1 _ (by decide),
   C2_amended.2.2.2.1 _ (by decide),
   (C2_amended.2.2.2.2.1 _ (by decide)).2.1,
   (C2_amended.2.2.2.2.2.1 _ (by decide)).1 (by decide),
   C2_amended.2.2.2.2.2.2.1 _ (by decide) (by decide) (by decide),
   C2_amended.2.2.2.2.2.2.2.1 0 88 88 72 [] (by decide),
   C2_amended.2.2.2.2.2.2.2.2 0 48 53 200 [] (by decide)⟩

/-! ## Claim C9 -/

/-- C9: `pack_client_payload` is total — every action string is encoded,
with the Hit token exactly when the lowercased action is `"hit"` and the
Stand token in every other case; decoding what it encodes therefore always
succeeds and never yields `None`. -/
theorem C9_pack_client_total :
    (∀ a : String, pyLower a = "hit" →
      pack_client_payload a = u32be MAGIC_COOKIE ++ [MSG_TYPE_PAYLOAD] ++ ACTION_HIT) ∧
    (∀ a : String, pyLower a ≠ "hit" →
      pack_client_payload a = u32be MAGIC_COOKIE ++ [MSG_TYPE_PAYLOAD] ++ ACTION_STAND) ∧
    (∀ a : String, unpack_client_payload (pack_client_payload a)
      = some (if pyLower a = "hit" then "hit" else "stand")) := by
  refine ⟨?_, ?_, ?_⟩
  · intro a h; rw [pack_client_payload, if_pos h]
  · intro a h; rw [pack_client_payload, if_neg h]
  · intro a
    by_cases h : pyLower a = "hit"
    · rw [pack_client_payload, if_pos h, if_pos h]; decide
    · rw [pack_client_payload, if_neg h, if_neg h]; decide

/-- Witness for C9: a case-variant of hit encodes the Hit token, any other
string the Stand token, and decode of an encode always succeeds. -/
theorem C9_pack_client_total_witness :
    pack_client_payload "HiT" = u32be MAGIC_COOKIE ++ [MSG_TYPE_PAYLOAD] ++ ACTION_HIT ∧
    pack_client_payload "fold" = u32be MAGIC_COOKIE ++ [MSG_TYPE_PAYLOAD] ++ ACTION_STAND ∧
    unpack_client_payload (pack_client_payload "Stand")
      = some (if pyLower "Stand" = "hit" then "hit" else "stand") :=
  ⟨C9_pack_client_total.1 "HiT" (by decide),
   C9_pack_client_total.2.1 "fold" (by decide),
   C9_pack_client_total.2.2 "Stand"⟩

/-! ## Claim C10 -/

lemma bytesToNat32_append (data extra : List Nat) (h : 4 ≤ data.length) :
    bytesToNat32 (data ++ extra) = bytesToNat32 data := by
  unfold bytesToNat32
  rw [List.getD_append _ _ _ _ (by omega), List.getD_append _ _ _ _ (by omega),
    List.getD_append _ _ _ _ (by omega), List.getD_append _ _ _ _ (by omega)]

/-- C10: every decode function looks only at the first fixed-size bytes of
its input and ignores any trailing bytes; encodings have exactly the fixed
size, so decoding an encoding followed by any suffix equals decoding the
encoding alone. -/
theorem C10_trailing_ignored :
    (∀ data extra : List Nat, OFFER_SIZE ≤ data.length →
      unpack_offer (data ++ extra) = unpack_offer data) ∧
    (∀ data extra : List Nat, REQUEST_SIZE ≤ data.length →
      unpack_request (data ++ extra) = unpack_request data) ∧
    (∀ data extra : List Nat, CLIENT_PAYLOAD_SIZE ≤ data.length →
      unpack_client_payload (data ++ extra) = unpack_client_payload data) ∧
    (∀ data extra : List Nat, SERVER_PAYLOAD_SIZE ≤ data.length →
      unpack_server_payload (data ++ extra) = unpack_server_payload data) ∧
    (∀ port name, (pack_offer port name).length = OFFER_SIZE) ∧
    (∀ r name, (pack_request r name).length = REQUEST_SIZE) ∧
    (∀ a, (pack_client_payload a).length = CLIENT_PAYLOAD_SIZE) ∧
    (∀ res rank s, rank < 100 → (pack_server_payload res rank s).length = SERVER_PAYLOAD_SIZE) := by
  refine ⟨?_, ?_, ?_, ?_, ?_, ?_, ?_, ?_⟩
  · intro data extra h
    have h4 : OFFER_SIZE = 39 := rfl
    rw [unpack_offer, unpack_offer,
      bytesToNat32_append data extra (by omega),
      List.getD_append _ _ _ _ (by omega), List.getD_append _ _ _ _ (by omega),
      List.getD_append _ _ _ _ (by omega), List.take_append_of_le_length (by omega),
      if_neg (show ¬((data ++ extra).length < OFFER_SIZE) by
        simp only [List.length_append]; omega),
      if_neg (show ¬(data.length < OFFER_SIZE) by omega)]
  · intro data extra h
    have h4 : REQUEST_SIZE = 38 := rfl
    rw [unpack_request, unpack_request,
      bytesToNat32_append data extra (by omega),
      List.getD_append _ _ _ _ (by omega), List.getD_append _ _ _ _ (by omega),
      List.take_append_of_le_length (by omega),
      if_neg (show ¬((data ++ extra).length < REQUEST_SIZE) by
        simp only [List.length_append]; omega),
      if_neg (show ¬(data.length < REQUEST_SIZE) by omega)]
  · intro data extra h
    have h4 : CLIENT_PAYLOAD_SIZE = 10 := rfl
    rw [unpack_client_payload, unpack_client_payload,
      bytesToNat32_append data extra (by omega),
      List.getD_append _ _ _ _ (by omega), List.take_append_of_le_length (by omega),
      if_neg (show ¬((data ++ extra).length < CLIENT_PAYLOAD_SIZE) by
        simp only [List.length_append]; omega),
      if_neg (show ¬(data.length < CLIENT_PAYLOAD_SIZE) by omega)]
  · intro data extra h
    have h4 : SERVER_PAYLOAD_SIZE = 9 := rfl
    rw [unpack_server_payload, unpack_server_payload,
      bytesToNat32_append data extra (by omega),
      List.getD_append _ _ _ _ (by omega), List.getD_append _ _ _ _ (by omega),
      List.getD_append _ _ _ _ (by omega), List.getD_append _ _ _ _ (by omega),
      List.getD_append _ _ _ _ (by omega),
      if_neg (show ¬((data ++ extra).length < SERVER_PAYLOAD_SIZE) by
        simp only [List.length_append]; omega),
      if_neg (show ¬(data.length < SERVER_PAYLOAD_SIZE) by omega)]
  · intro port name
    simp [pack_offer, u32be, u16be, pad_name_length, OFFER_SIZE, NAME_LENGTH]
  · intro r name
    simp [pack_request, u32be, pad_name_length, REQUEST_SIZE, NAME_LENGTH]
  · intro a
    rw [pack_client_payload]
    by_cases h : pyLower a = "hit"
    · rw [if_pos h]; decide
    · rw [if_neg h]; decide
  · intro res rank s h
    rw [pack_server_payload, rankField, if_pos h]
    simp [u32be, SERVER_PAYLOAD_SIZE]

/-- Witness for C10 at a concrete message and suffix. -/
theorem C10_trailing_ignored_witness :
    unpack_request (pack_request 5 [65] ++ [7, 7, 7]) = unpack_request (pack_request 5 [65]) ∧
    unpack_server_payload (pack_server_payload 0 10 68 ++ [255])
      = unpack_server_payload (pack_server_payload 0 10 68) ∧
    (pack_offer 13122 [84]).length = OFFER_SIZE :=
  ⟨C10_trailing_ignored.2.1 _ [7, 7, 7] (by decide),
   C10_trailing_ignored.2.2.2.1 _ [255] (by decide),
   C10_trailing_ignored.2.2.2.2.1 13122 [84]⟩

/-! ## Deck lemmas -/

lemma popLast_concat (l : List Card) (x : Card) : popLast (l ++ [x]) = some (x, l) := by
  simp [popLast]

lemma drawCard_concat (fresh l : List Card) (x : Card) :
    drawCard fresh (l ++ [x]) = some (x, l) := by
  rw [drawCard, if_neg (by simp), popLast_concat]

lemma drawCard_isSome (fresh deck : List Card) (hf : fresh ≠ []) :
    (drawCard fresh deck).isSome = true := by
  induction deck using List.reverseRecOn with
  | nil =>
    induction fresh using List.reverseRecOn with
    | nil => exact absurd rfl hf
    | append_singleton xs x _ => simp [drawCard, popLast_concat]
  | append_singleton xs x _ => simp [drawCard_concat]

lemma mem_of_popLast (l r : List Card) (c : Card) (h : popLast l = some (c, r)) :
    c ∈ l ∧ ∀ x ∈ r, x ∈ l := by
  induction l using List.reverseRecOn with
  | nil => simp [popLast] at h
  | append_singleton xs x _ =>
    rw [popLast_concat] at h
    obtain ⟨rfl, rfl⟩ := Prod.mk.injEq .. ▸ Option.some.injEq .. ▸ h
    exact ⟨by simp, fun y hy => by simp [hy]⟩

lemma drawCard_mem (fresh deck deck' : List Card) (c : Card)
    (h : drawCard fresh deck = some (c, deck')) :
    (c ∈ deck ∨ c ∈ fresh) ∧ ∀ x ∈ deck', x ∈ deck ∨ x ∈ fresh := by
  rw [drawCard] at h
  by_cases he : deck.isEmpty
  · rw [if_pos he] at h
    obtain ⟨h1, h2⟩ := mem_of_popLast fresh deck' c h
    exact ⟨Or.inr h1, fun x hx => Or.inr (h2 x hx)⟩
  · rw [if_neg he] at h
    obtain ⟨h1, h2⟩ := mem_of_popLast deck deck' c h
    exact ⟨Or.inl h1, fun x hx => Or.inl (h2 x hx)⟩

lemma calculate_sum_append (xs ys : List Card) :
    calculate_sum (xs ++ ys) = calculate_sum xs + calculate_sum ys := by
  simp [calculate_sum]

lemma calculate_sum_concat (xs : List Card) (c : Card) :
    calculate_sum (xs ++ [c]) = calculate_sum xs + get_card_value c.1 := by
  simp [calculate_sum]

lemma value_ge_two (r : Nat) (h1 : 1 ≤ r) (h2 : r ≤ 13) : 2 ≤ get_card_value r := by
  rw [get_card_value]; split_ifs <;> omega

lemma drawN_full (fresh deck : List Card) :
    drawN fresh deck.length deck = (deck.reverse, []) := by
  induction deck using List.reverseRecOn with
  | nil => simp [drawN]
  | append_singleton xs x ih =>
    rw [List.length_append]
    simp only [List.length_cons, List.length_nil, List.reverse_append, List.reverse_cons,
      List.reverse_nil, List.nil_append, List.cons_append]
    rw [show xs.length + (0 + 1) = xs.length + 1 by omega]
    rw [drawN, drawCard_concat]
    simp [ih]

/-! ## Claim C4 -/

/-- C4: a freshly reset deck (any shuffle of the full 52-card list) holds
all 52 distinct rank/suit pairs; the next 52 draws return exactly those 52
pairwise-distinct cards, covering the full set once, and empty the deck;
and a draw from an empty deck (the 53rd) performs the implicit reset and
still returns a card — a draw never fails. -/
theorem C4_deck_invariant :
    (∀ s : List Card, s.Perm fullDeck → s.length = 52 ∧ s.Nodup) ∧
    (∀ s fresh : List Card, s.Perm fullDeck →
      drawN fresh 52 s = (s.reverse, []) ∧ (drawN fresh 52 s).1.Nodup ∧
      (drawN fresh 52 s).1.Perm fullDeck) ∧
    (∀ fresh deck : List Card, fresh.Perm fullDeck → (drawCard fresh deck).isSome = true) := by
  have hnodup : fullDeck.Nodup := by decide
  have hlen : fullDeck.length = 52 := by decide
  refine ⟨?_, ?_, ?_⟩
  · intro s hs
    exact ⟨hs.length_eq.trans hlen, hs.nodup_iff.mpr hnodup⟩
  · intro s fresh hs
    have h52 : s.length = 52 := hs.length_eq.trans hlen
    have hdraw := drawN_full fresh s
    rw [h52] at hdraw
    refine ⟨hdraw, ?_, ?_⟩ <;> rw [hdraw]
    · simpa using hs.nodup_iff.mpr hnodup
    · exact s.reverse_perm.trans hs
  · intro fresh deck hf
    have hne : fresh ≠ [] := by
      intro h
      rw [h] at hf
      have := hf.length_eq
      rw [hlen] at this
      simp at this
    exact drawCard_isSome fresh deck hne

/-- Witness for C4 with the identity shuffle. -/
theorem C4_deck_invariant_witness :
    (fullDeck.length = 52 ∧ fullDeck.Nodup) ∧
    drawN fullDeck 52 fullDeck = (fullDeck.reverse, []) ∧
    (drawCard fullDeck []).isSome = true :=
  ⟨C4_deck_invariant.1 fullDeck (List.Perm.refl _),
   (C4_deck_invariant.2.1 fullDeck fullDeck (List.Perm.refl _)).1,
   C4_deck_invariant.2.2 fullDeck [] (List.Perm.refl _)⟩

/-! ## Claim C8 -/

/-- C8: the blackjack card value is 11 for the Ace (rank 1), 10 for ranks
11..13 (J, Q, K) and the rank itself for 2..10; a hand's total is the plain
sum of the per-card values, with no soft/hard ace re-valuation — in
particular the total is additive over concatenation of hands. -/
theorem C8_card_value :
    get_card_value 1 = 11 ∧
    (∀ r, 11 ≤ r → r ≤ 13 → get_card_value r = 10) ∧
    (∀ r, 2 ≤ r → r ≤ 10 → get_card_value r = r) ∧
    (∀ cards : List Card, calculate_sum cards
      = (cards.map (fun c => get_card_value c.1)).sum) ∧
    (∀ xs ys : List Card, calculate_sum (xs ++ ys) = calculate_sum xs + calculate_sum ys) := by
  refine ⟨rfl, ?_, ?_, fun _ => rfl, calculate_sum_append⟩
  · intro r h1 h2
    rw [get_card_value, if_neg (by omega), if_pos h1]
  · intro r h1 h2
    rw [get_card_value, if_neg (by omega), if_neg (by omega)]

/-- Witness for C8 at the three rank classes and a concrete hand. -/
theorem C8_card_value_witness :
    get_card_value 12 = 10 ∧ get_card_value 7 = 7 ∧
    calculate_sum ([(1, 0)] ++ [(13, 1)]) = calculate_sum [(1, 0)] + calculate_sum [(13, 1)] :=
  ⟨C8_card_value.2.1 12 (by norm_num) (by norm_num),
   C8_card_value.2.2.1 7 (by norm_num) (by norm_num),
   C8_card_value.2.2.2.2 [(1, 0)] [(13, 1)]⟩

/-! ## Player-turn loop lemmas -/

lemma playerLoop_ge (fresh : List Card) (acts : List (Option String)) (deck pcards : List Card)
    (h : ¬calculate_sum pcards < 21) :
    playerLoop fresh acts deck pcards = ⟨.toDealer, deck, pcards, [], acts⟩ := by
  rw [playerLoop.eq_def]
  dsimp only
  rw [if_neg h]

lemma playerLoop_nil (fresh : List Card) (deck pcards : List Card)
    (h : calculate_sum pcards < 21) :
    playerLoop fresh [] deck pcards = ⟨.aborted, deck, pcards, [], []⟩ := by
  rw [playerLoop.eq_def]
  dsimp only
  rw [if_pos h]

lemma playerLoop_none (fresh : List Card) (rest : List (Option String)) (deck pcards : List Card)
    (h : calculate_sum pcards < 21) :
    playerLoop fresh (none :: rest) deck pcards = ⟨.aborted, deck, pcards, [], rest⟩ := by
  rw [playerLoop.eq_def]
  dsimp only
  rw [if_pos h]

lemma playerLoop_stand (fresh : List Card) (rest : List (Option String)) (deck pcards : List Card)
    (h : calculate_sum pcards < 21) :
    playerLoop fresh (some "stand" :: rest) deck pcards
      = ⟨.toDealer, deck, pcards, [(RESULT_ROUND_NOT_OVER, 0, 72)], rest⟩ := by
  rw [playerLoop.eq_def]
  dsimp only
  rw [if_pos h, if_pos rfl]

lemma playerLoop_hit (fresh : List Card) (rest : List (Option String)) (deck deck' pcards : List Card)
    (c : Card) (h : calculate_sum pcards < 21) (hd : drawCard fresh deck = some (c, deck')) :
    playerLoop fresh (some "hit" :: rest) deck pcards
      = if 21 < calculate_sum (pcards ++ [c]) then
          ⟨.bust, deck', pcards ++ [c], [msgOfCard RESULT_LOSS c], rest⟩
        else
          (let s := playerLoop fresh rest deck' (pcards ++ [c])
           ⟨s.status, s.deck, s.pcards, msgOfCard RESULT_ROUND_NOT_OVER c :: s.msgs, s.rem⟩) := by
  rw [playerLoop.eq_def]
  dsimp only
  rw [if_pos h]
  simp only [reduceIte, hd]
  rw [if_neg (by decide : ¬("hit" = "stand"))]

lemma playerLoop_hit_fail (fresh : List Card) (rest : List (Option String)) (deck pcards : List Card)
    (h : calculate_sum pcards < 21) (hd : drawCard fresh deck = none) :
    playerLoop fresh (some "hit" :: rest) deck pcards = ⟨.aborted, deck, pcards, [], rest⟩ := by
  rw [playerLoop.eq_def]
  dsimp only
  rw [if_pos h]
  simp only [reduceIte, hd]
  rw [if_neg (by decide : ¬("hit" = "stand"))]

lemma playerLoop_other (fresh : List Card) (a : String) (rest : List (Option String))
    (deck pcards : List Card) (h : calculate_sum pcards < 21)
    (ha1 : a ≠ "stand") (ha2 : a ≠ "hit") :
    playerLoop fresh (some a :: rest) deck pcards = playerLoop fresh rest deck pcards := by
  rw [playerLoop.eq_def]
  dsimp only
  rw [if_pos h]
  simp only [if_neg ha1, if_neg ha2]

lemma playerLoop_bust_sum (fresh : List Card) :
    ∀ (acts : List (Option String)) (deck pcards : List Card),
      (playerLoop fresh acts deck pcards).status = .bust →
      21 < calculate_sum (playerLoop fresh acts deck pcards).pcards := by
  intro acts
  induction acts with
  | nil =>
    intro deck pcards hst
    by_cases h : calculate_sum pcards < 21
    · rw [playerLoop_nil fresh deck pcards h] at hst ⊢
      exact absurd hst (by simp)
    · rw [playerLoop_ge fresh [] deck pcards h] at hst ⊢
      exact absurd hst (by simp)
  | cons a rest ih =>
    intro deck pcards hst
    by_cases h : calculate_sum pcards < 21
    · cases a with
      | none =>
        rw [playerLoop_none fresh rest deck pcards h] at hst ⊢
        exact absurd hst (by simp)
      | some s =>
        by_cases hs : s = "stand"
        · subst hs
          rw [playerLoop_stand fresh rest deck pcards h] at hst ⊢
          exact absurd hst (by simp)
        · by_cases hh : s = "hit"
          · subst hh
            cases hdc : drawCard fresh deck with
            | none =>
              rw [playerLoop_hit_fail fresh rest deck pcards h hdc] at hst ⊢
              exact absurd hst (by simp)
            | some cd =>
              obtain ⟨c, deck'⟩ := cd
              rw [playerLoop_hit fresh rest deck deck' pcards c h hdc] at hst ⊢
              by_cases hb : 21 < calculate_sum (pcards ++ [c])
              · rw [if_pos hb] at hst ⊢
                exact hb
              · rw [if_neg hb] at hst ⊢
                exact ih deck' (pcards ++ [c]) hst
          · rw [playerLoop_other fresh s rest deck pcards h hs hh] at hst ⊢
            exact ih deck pcards hst
    · rw [playerLoop_ge fresh (a :: rest) deck pcards h] at hst ⊢
      exact absurd hst (by simp)

lemma playerLoop_bust_shape (fresh : List Card) :
    ∀ (acts : List (Option String)) (deck pcards : List Card),
      (playerLoop fresh acts deck pcards).status = .bust →
      ∃ c : Card,
        (playerLoop fresh acts deck pcards).pcards.getLast? = some c ∧
        (playerLoop fresh acts deck pcards).msgs.getLast?
          = some (RESULT_LOSS, c.1, SUITS.getD c.2 0) ∧
        ∀ m ∈ (playerLoop fresh acts deck pcards).msgs.dropLast,
          m.1 = RESULT_ROUND_NOT_OVER := by
  intro acts
  induction acts with
  | nil =>
    intro deck pcards hst
    by_cases h : calculate_sum pcards < 21
    · rw [playerLoop_nil fresh deck pcards h] at hst
      exact absurd hst (by simp)
    · rw [playerLoop_ge fresh [] deck pcards h] at hst
      exact absurd hst (by simp)
  | cons a rest ih =>
    intro deck pcards hst
    by_cases h : calculate_sum pcards < 21
    · cases a with
      | none =>
        rw [playerLoop_none fresh rest deck pcards h] at hst
        exact absurd hst (by simp)
      | some s =>
        by_cases hs : s = "stand"
        · subst hs
          rw [playerLoop_stand fresh rest deck pcards h] at hst
          exact absurd hst (by simp)
        · by_cases hh : s = "hit"
          · subst hh
            cases hdc : drawCard fresh deck with
            | none =>
              rw [playerLoop_hit_fail fresh rest deck pcards h hdc] at hst
              exact absurd hst (by simp)
            | some cd =>
              obtain ⟨c, deck'⟩ := cd
              rw [playerLoop_hit fresh rest deck deck' pcards c h hdc] at hst ⊢
              by_cases hb : 21 < calculate_sum (pcards ++ [c])
              · rw [if_pos hb] at hst ⊢
                exact ⟨c, by simp, by simp [msgOfCard], by simp⟩
              · rw [if_neg hb] at hst ⊢
                obtain ⟨c', h1, h2, h3⟩ := ih deck' (pcards ++ [c]) hst
                have hne : (playerLoop fresh rest deck' (pcards ++ [c])).msgs ≠ [] := by
                  intro hnil
                  rw [hnil] at h2
                  simp at h2
                refine ⟨c', h1, ?_, ?_⟩
                · show (msgOfCard RESULT_ROUND_NOT_OVER c
                      :: (playerLoop fresh rest deck' (pcards ++ [c])).msgs).getLast? = _
                  cases hm : (playerLoop fresh rest deck' (pcards ++ [c])).msgs with
                  | nil => exact absurd hm hne
                  | cons b t =>
                    rw [List.getLast?_cons_cons, ← hm]
                    exact h2
                · show ∀ m ∈ (msgOfCard RESULT_ROUND_NOT_OVER c
                      :: (playerLoop fresh rest deck' (pcards ++ [c])).msgs).dropLast, _
                  cases hm : (playerLoop fresh rest deck' (pcards ++ [c])).msgs with
                  | nil => exact absurd hm hne
                  | cons b t =>
                    intro m hmem
                    rw [show (msgOfCard RESULT_ROUND_NOT_OVER c :: b :: t).dropLast
                        = msgOfCard RESULT_ROUND_NOT_OVER c :: (b :: t).dropLast from rfl] at hmem
                    rcases List.mem_cons.mp hmem with rfl | hmem'
                    · rfl
                    · exact h3 m (hm ▸ hmem')
          · rw [playerLoop_other fresh s rest deck pcards h hs hh] at hst ⊢
            exact ih deck pcards hst
    · rw [playerLoop_ge fresh (a :: rest) deck pcards h] at hst
      exact absurd hst (by simp)

lemma playerLoop_rem_le (fresh : List Card) :
    ∀ (acts : List (Option String)) (deck pcards : List Card),
      (playerLoop fresh acts deck pcards).rem.length ≤ acts.length := by
  intro acts
  induction acts with
  | nil =>
    intro deck pcards
    by_cases h : calculate_sum pcards < 21
    · rw [playerLoop_nil fresh deck pcards h]
    · rw [playerLoop_ge fresh [] deck pcards h]
  | cons a rest ih =>
    intro deck pcards
    by_cases h : calculate_sum pcards < 21
    · cases a with
      | none =>
        rw [playerLoop_none fresh rest deck pcards h]
        simp
      | some s =>
        by_cases hs : s = "stand"
        · subst hs
          rw [playerLoop_stand fresh rest deck pcards h]
          simp
        · by_cases hh : s = "hit"
          · subst hh
            cases hdc : drawCard fresh deck with
            | none =>
              rw [playerLoop_hit_fail fresh rest deck pcards h hdc]
              simp
            | some cd =>
              obtain ⟨c, deck'⟩ := cd
              rw [playerLoop_hit fresh rest deck deck' pcards c h hdc]
              by_cases hb : 21 < calculate_sum (pcards ++ [c])
              · rw [if_pos hb]
                simp
              · rw [if_neg hb]
                calc (playerLoop fresh rest deck' (pcards ++ [c])).rem.length
                    ≤ rest.length := ih deck' (pcards ++ [c])
                  _ ≤ (some "hit" :: rest).length := by simp
          · rw [playerLoop_other fresh s rest deck pcards h hs hh]
            calc (playerLoop fresh rest deck pcards).rem.length
                ≤ rest.length := ih deck pcards
              _ ≤ (some s :: rest).length := by simp
    · rw [playerLoop_ge fresh (a :: rest) deck pcards h]

/-! ## Dealer-draw loop lemmas -/

lemma dealerLoop_ge (fresh : List Card) (fuel : Nat) (deck dcards : List Card)
    (h : ¬calculate_sum dcards < 17) :
    dealerLoop fresh fuel deck dcards = ⟨true, deck, dcards, []⟩ := by
  rw [dealerLoop.eq_def]
  dsimp only
  rw [if_neg h]

lemma dealerLoop_step (fresh : List Card) (fuel : Nat) (deck deck' dcards : List Card) (c : Card)
    (h : calculate_sum dcards < 17) (hd : drawCard fresh deck = some (c, deck')) :
    dealerLoop fresh (fuel + 1) deck dcards
      = (let s := dealerLoop fresh fuel deck' (dcards ++ [c])
         ⟨s.ok, s.deck, s.dcards, msgOfCard RESULT_ROUND_NOT_OVER c :: s.msgs⟩) := by
  rw [dealerLoop.eq_def]
  dsimp only
  rw [if_pos h]
  simp only [hd]

lemma dealerLoop_spec (fresh : List Card) (hf : fresh ≠ [])
    (hvf : ∀ c ∈ fresh, 1 ≤ c.1 ∧ c.1 ≤ 13) :
    ∀ (fuel : Nat) (deck dcards : List Card),
      (∀ c ∈ deck, 1 ≤ c.1 ∧ c.1 ≤ 13) →
      17 ≤ calculate_sum dcards + 2 * fuel →
      (dealerLoop fresh fuel deck dcards).ok = true ∧
      17 ≤ calculate_sum (dealerLoop fresh fuel deck dcards).dcards ∧
      (∃ drawn, (dealerLoop fresh fuel deck dcards).dcards = dcards ++ drawn ∧
        (dealerLoop fresh fuel deck dcards).msgs
          = drawn.map (msgOfCard RESULT_ROUND_NOT_OVER)) ∧
      (∀ k, dcards.length ≤ k → k < (dealerLoop fresh fuel deck dcards).dcards.length →
        calculate_sum ((dealerLoop fresh fuel deck dcards).dcards.take k) < 17) := by
  intro fuel
  induction fuel with
  | zero =>
    intro deck dcards hvd hsum
    have h : ¬calculate_sum dcards < 17 := by omega
    rw [dealerLoop_ge fresh 0 deck dcards h]
    refine ⟨rfl, by dsimp; omega, ⟨[], by simp, by simp⟩, ?_⟩
    intro k hk1 hk2
    dsimp at hk2
    omega
  | succ fuel ih =>
    intro deck dcards hvd hsum
    by_cases h : calculate_sum dcards < 17
    · cases hdc : drawCard fresh deck with
      | none =>
        have := drawCard_isSome fresh deck hf
        rw [hdc] at this
        simp at this
      | some cd =>
        obtain ⟨c, deck'⟩ := cd
        have hcmem := drawCard_mem fresh deck deck' c hdc
        have hcv : 1 ≤ c.1 ∧ c.1 ≤ 13 := by
          rcases hcmem.1 with h' | h'
          · exact hvd c h'
          · exact hvf c h'
        have hval : 2 ≤ get_card_value c.1 := value_ge_two c.1 hcv.1 hcv.2
        have hvd' : ∀ x ∈ deck', 1 ≤ x.1 ∧ x.1 ≤ 13 := by
          intro x hx
          rcases hcmem.2 x hx with h' | h'
          · exact hvd x h'
          · exact hvf x h'
        have hsum' : 17 ≤ calculate_sum (dcards ++ [c]) + 2 * fuel := by
          rw [calculate_sum_concat]
          omega
        obtain ⟨hok, hge, ⟨drawn, hdcs, hmsgs⟩, hpre⟩ := ih deck' (dcards ++ [c]) hvd' hsum'
        rw [dealerLoop_step fresh fuel deck deck' dcards c h hdc]
        refine ⟨hok, hge, ⟨c :: drawn, ?_, ?_⟩, ?_⟩
        · show (dealerLoop fresh fuel deck' (dcards ++ [c])).dcards = _
          rw [hdcs]
          simp
        · show msgOfCard RESULT_ROUND_NOT_OVER c
              :: (dealerLoop fresh fuel deck' (dcards ++ [c])).msgs = _
          rw [hmsgs]
          simp
        · intro k hk1 hk2
          show calculate_sum ((dealerLoop fresh fuel deck' (dcards ++ [c])).dcards.take k) < 17
          by_cases hkeq : k = dcards.length
          · subst hkeq
            have htake : (dealerLoop fresh fuel deck' (dcards ++ [c])).dcards.take dcards.length
                = dcards := by
              rw [hdcs, List.append_assoc, List.take_left]
            rw [htake]
            exact h
          · have hk1' : (dcards ++ [c]).length ≤ k := by
              simp only [List.length_append, List.length_cons, List.length_nil]
              omega
            exact hpre k hk1' hk2
    · rw [dealerLoop_ge fresh (fuel + 1) deck dcards h]
      refine ⟨rfl, by dsimp; omega, ⟨[], by simp, by simp⟩, ?_⟩
      intro k hk1 hk2
      dsimp at hk2
      omega

/-! ## Claim C7 -/

/-- C7: the dealer-draw loop terminates and is exact: with a non-empty
reshuffle deck and genuine cards (ranks 1..13, hence values at least 2, so
the total strictly increases each iteration), any fuel satisfying
`17 ≤ total + 2 * fuel` completes the loop; on exit the dealer total is at
least 17, the cards drawn were appended one at a time and each sent tagged
`RESULT_ROUND_NOT_OVER`, and every intermediate hand before a draw had
total strictly below 17. -/
theorem C7_dealer_loop_terminates :
    ∀ (fuel : Nat) (fresh deck dcards : List Card),
      fresh ≠ [] →
      (∀ c ∈ fresh, 1 ≤ c.1 ∧ c.1 ≤ 13) →
      (∀ c ∈ deck, 1 ≤ c.1 ∧ c.1 ≤ 13) →
      17 ≤ calculate_sum dcards + 2 * fuel →
      (dealerLoop fresh fuel deck dcards).ok = true ∧
      17 ≤ calculate_sum (dealerLoop fresh fuel deck dcards).dcards ∧
      (∃ drawn, (dealerLoop fresh fuel deck dcards).dcards = dcards ++ drawn ∧
        (dealerLoop fresh fuel deck dcards).msgs
          = drawn.map (msgOfCard RESULT_ROUND_NOT_OVER)) ∧
      (∀ k, dcards.length ≤ k → k < (dealerLoop fresh fuel deck dcards).dcards.length →
        calculate_sum ((dealerLoop fresh fuel deck dcards).dcards.take k) < 17) :=
  fun fuel fresh deck dcards hf hvf hvd hsum =>
    dealerLoop_spec fresh hf hvf fuel deck dcards hvd hsum

/-- Witness for C7: a 16-point dealer hand draws exactly one card and
stops at 19. -/
theorem C7_dealer_loop_terminates_witness :
    (dealerLoop [(2, 0)] 1 [(3, 2)] [(10, 0), (6, 1)]).ok = true ∧
    17 ≤ calculate_sum (dealerLoop [(2, 0)] 1 [(3, 2)] [(10, 0), (6, 1)]).dcards ∧
    (∃ drawn, (dealerLoop [(2, 0)] 1 [(3, 2)] [(10, 0), (6, 1)]).dcards
        = [(10, 0), (6, 1)] ++ drawn ∧
      (dealerLoop [(2, 0)] 1 [(3, 2)] [(10, 0), (6, 1)]).msgs
        = drawn.map (msgOfCard RESULT_ROUND_NOT_OVER)) ∧
    (∀ k, ([(10, 0), (6, 1)] : List Card).length ≤ k →
      k < (dealerLoop [(2, 0)] 1 [(3, 2)] [(10, 0), (6, 1)]).dcards.length →
      calculate_sum ((dealerLoop [(2, 0)] 1 [(3, 2)] [(10, 0), (6, 1)]).dcards.take k) < 17) :=
  C7_dealer_loop_terminates 1 [(2, 0)] [(3, 2)] [(10, 0), (6, 1)]
    (by decide) (by decide) (by decide) (by decide)

/-! ## Round path lemmas -/

lemma draw4_concat (fresh rdeck : List Card) (c1 c2 d1 d2 : Card) :
    draw4 fresh (rdeck ++ [d2, d1, c2, c1]) = some (c1, c2, d1, d2, rdeck) := by
  have e1 : rdeck ++ [d2, d1, c2, c1] = (rdeck ++ [d2, d1, c2]) ++ [c1] := by simp
  have e2 : rdeck ++ [d2, d1, c2] = (rdeck ++ [d2, d1]) ++ [c2] := by simp
  have e3 : rdeck ++ [d2, d1] = (rdeck ++ [d2]) ++ [d1] := by simp
  rw [draw4, e1, drawCard_concat]
  dsimp only
  rw [e2, drawCard_concat]
  dsimp only
  rw [e3, drawCard_concat]
  dsimp only
  rw [drawCard_concat]

lemma playRound_aborted (fresh deck : List Card) (acts : List (Option String)) (fuel : Nat)
    (c1 c2 d1 d2 : Card) (deck1 : List Card)
    (hd4 : draw4 fresh deck = some (c1, c2, d1, d2, deck1))
    (hst : (playerLoop fresh acts deck1 [c1, c2]).status = .aborted) :
    playRound fresh deck acts fuel
      = ⟨none,
         [msgOfCard RESULT_ROUND_NOT_OVER c1, msgOfCard RESULT_ROUND_NOT_OVER c2,
          msgOfCard RESULT_ROUND_NOT_OVER d1] ++ (playerLoop fresh acts deck1 [c1, c2]).msgs,
         (playerLoop fresh acts deck1 [c1, c2]).pcards, [d1, d2],
         (playerLoop fresh acts deck1 [c1, c2]).rem⟩ := by
  rw [playRound, hd4]
  dsimp only
  rw [hst]

lemma playRound_bust (fresh deck : List Card) (acts : List (Option String)) (fuel : Nat)
    (c1 c2 d1 d2 : Card) (deck1 : List Card)
    (hd4 : draw4 fresh deck = some (c1, c2, d1, d2, deck1))
    (hst : (playerLoop fresh acts deck1 [c1, c2]).status = .bust) :
    playRound fresh deck acts fuel
      = ⟨some "loss",
         [msgOfCard RESULT_ROUND_NOT_OVER c1, msgOfCard RESULT_ROUND_NOT_OVER c2,
          msgOfCard RESULT_ROUND_NOT_OVER d1] ++ (playerLoop fresh acts deck1 [c1, c2]).msgs,
         (playerLoop fresh acts deck1 [c1, c2]).pcards, [d1, d2],
         (playerLoop fresh acts deck1 [c1, c2]).rem⟩ := by
  rw [playRound, hd4]
  dsimp only
  rw [hst]

lemma playRound_toDealer_ok (fresh deck : List Card) (acts : List (Option String)) (fuel : Nat)
    (c1 c2 d1 d2 : Card) (deck1 : List Card)
    (hd4 : draw4 fresh deck = some (c1, c2, d1, d2, deck1))
    (hst : (playerLoop fresh acts deck1 [c1, c2]).status = .toDealer)
    (hok : (dealerLoop fresh fuel (playerLoop fresh acts deck1 [c1, c2]).deck [d1, d2]).ok
      = true) :
    playRound fresh deck acts fuel
      = ⟨some (if 21 < calculate_sum
              (dealerLoop fresh fuel (playerLoop fresh acts deck1 [c1, c2]).deck [d1, d2]).dcards
            then "win"
            else if calculate_sum
                (dealerLoop fresh fuel (playerLoop fresh acts deck1 [c1, c2]).deck [d1, d2]).dcards
              < calculate_sum (playerLoop fresh acts deck1 [c1, c2]).pcards then "win"
            else if calculate_sum (playerLoop fresh acts deck1 [c1, c2]).pcards
              < calculate_sum
                (dealerLoop fresh fuel (playerLoop fresh acts deck1 [c1, c2]).deck [d1, d2]).dcards
              then "loss"
            else "tie"),
         [msgOfCard RESULT_ROUND_NOT_OVER c1, msgOfCard RESULT_ROUND_NOT_OVER c2,
          msgOfCard RESULT_ROUND_NOT_OVER d1] ++ (playerLoop fresh acts deck1 [c1, c2]).msgs
          ++ [msgOfCard RESULT_ROUND_NOT_OVER d2]
          ++ (dealerLoop fresh fuel (playerLoop fresh acts deck1 [c1, c2]).deck [d1, d2]).msgs
          ++ [(if 21 < calculate_sum
                (dealerLoop fresh fuel (playerLoop fresh acts deck1 [c1, c2]).deck [d1, d2]).dcards
              then RESULT_WIN
              else if calculate_sum
                  (dealerLoop fresh fuel
                    (playerLoop fresh acts deck1 [c1, c2]).deck [d1, d2]).dcards
                < calculate_sum (playerLoop fresh acts deck1 [c1, c2]).pcards then RESULT_WIN
              else if calculate_sum (playerLoop fresh acts deck1 [c1, c2]).pcards
                < calculate_sum
                  (dealerLoop fresh fuel
                    (playerLoop fresh acts deck1 [c1, c2]).deck [d1, d2]).dcards
                then RESULT_LOSS
              else RESULT_TIE, 0, 72)],
         (playerLoop fresh acts deck1 [c1, c2]).pcards,
         (dealerLoop fresh fuel (playerLoop fresh acts deck1 [c1, c2]).deck [d1, d2]).dcards,
         (playerLoop fresh acts deck1 [c1, c2]).rem⟩ := by
  rw [playRound, hd4]
  dsimp only
  rw [hst]
  dsimp only
  rw [if_pos hok]

lemma playRound_toDealer_fail (fresh deck : List Card) (acts : List (Option String)) (fuel : Nat)
    (c1 c2 d1 d2 : Card) (deck1 : List Card)
    (hd4 : draw4 fresh deck = some (c1, c2, d1, d2, deck1))
    (hst : (playerLoop fresh acts deck1 [c1, c2]).status = .toDealer)
    (hok : ¬(dealerLoop fresh fuel (playerLoop fresh acts deck1 [c1, c2]).deck [d1, d2]).ok
      = true) :
    playRound fresh deck acts fuel
      = ⟨none,
         [msgOfCard RESULT_ROUND_NOT_OVER c1, msgOfCard RESULT_ROUND_NOT_OVER c2,
          msgOfCard RESULT_ROUND_NOT_OVER d1] ++ (playerLoop fresh acts deck1 [c1, c2]).msgs
          ++ [msgOfCard RESULT_ROUND_NOT_OVER d2]
          ++ (dealerLoop fresh fuel (playerLoop fresh acts deck1 [c1, c2]).deck [d1, d2]).msgs,
         (playerLoop fresh acts deck1 [c1, c2]).pcards,
         (dealerLoop fresh fuel (playerLoop fresh acts deck1 [c1, c2]).deck [d1, d2]).dcards,
         (playerLoop fresh acts deck1 [c1, c2]).rem⟩ := by
  rw [playRound, hd4]
  dsimp only
  rw [hst]
  dsimp only
  rw [if_neg hok]

lemma playRound_draw_fail (fresh deck : List Card) (acts : List (Option String)) (fuel : Nat)
    (hd4 : draw4 fresh deck = none) :
    playRound fresh deck acts fuel = ⟨none, [], [], [], acts⟩ := by
  rw [playRound, hd4]

/-! ## Claim C3 -/

/-- C3: whenever a round completes (`play_round` returns a result) and the
player has not busted (final player total at most 21), the last Server
Payload sent is the no-card sentinel carrying the result of comparing the
final totals — WIN if the dealer total exceeds 21, otherwise WIN if the
player total exceeds the dealer total, LOSS if the dealer total exceeds the
player total, TIE if equal — and the returned result string matches; the
totals themselves, and hence the resolution, depend only on the cards'
ranks, never on their suits. -/
theorem C3_resolution :
    (∀ (fresh deck : List Card) (acts : List (Option String)) (fuel : Nat) (r : String),
      (playRound fresh deck acts fuel).result = some r →
      calculate_sum (playRound fresh deck acts fuel).pcards ≤ 21 →
      (playRound fresh deck acts fuel).msgs.getLast?
        = some ((if 21 < calculate_sum (playRound fresh deck acts fuel).dcards then RESULT_WIN
            else if calculate_sum (playRound fresh deck acts fuel).dcards
                < calculate_sum (playRound fresh deck acts fuel).pcards then RESULT_WIN
            else if calculate_sum (playRound fresh deck acts fuel).pcards
                < calculate_sum (playRound fresh deck acts fuel).dcards then RESULT_LOSS
            else RESULT_TIE), 0, 72) ∧
      r = (if 21 < calculate_sum (playRound fresh deck acts fuel).dcards then "win"
            else if calculate_sum (playRound fresh deck acts fuel).dcards
                < calculate_sum (playRound fresh deck acts fuel).pcards then "win"
            else if calculate_sum (playRound fresh deck acts fuel).pcards
                < calculate_sum (playRound fresh deck acts fuel).dcards then "loss"
            else "tie")) ∧
    (∀ cards cards' : List Card, cards.map Prod.fst = cards'.map Prod.fst →
      calculate_sum cards = calculate_sum cards') := by
  constructor
  · intro fresh deck acts fuel r hres hple
    cases hd4 : draw4 fresh deck with
    | none =>
      rw [playRound_draw_fail fresh deck acts fuel hd4] at hres
      simp at hres
    | some t =>
      obtain ⟨c1, c2, d1, d2, deck1⟩ := t
      cases hst : (playerLoop fresh acts deck1 [c1, c2]).status with
      | aborted =>
        rw [playRound_aborted fresh deck acts fuel c1 c2 d1 d2 deck1 hd4 hst] at hres
        simp at hres
      | bust =>
        rw [playRound_bust fresh deck acts fuel c1 c2 d1 d2 deck1 hd4 hst] at hple
        dsimp at hple
        have := playerLoop_bust_sum fresh acts deck1 [c1, c2] hst
        omega
      | toDealer =>
        by_cases hok : (dealerLoop fresh fuel
            (playerLoop fresh acts deck1 [c1, c2]).deck [d1, d2]).ok = true
        · rw [playRound_toDealer_ok fresh deck acts fuel c1 c2 d1 d2 deck1 hd4 hst hok]
            at hres hple ⊢
          dsimp at hres hple ⊢
          refine ⟨?_, (Option.some.inj hres).symm⟩
          rw [← List.cons_append, ← List.cons_append, ← List.cons_append, List.getLast?_concat]
        · rw [playRound_toDealer_fail fresh deck acts fuel c1 c2 d1 d2 deck1 hd4 hst hok] at hres
          simp at hres
  · intro cards cards' h
    simp only [calculate_sum]
    have e1 : cards.map (fun c : Card => get_card_value c.1)
        = (cards.map Prod.fst).map get_card_value := by
      rw [List.map_map]
      rfl
    have e2 : cards'.map (fun c : Card => get_card_value c.1)
        = (cards'.map Prod.fst).map get_card_value := by
      rw [List.map_map]
      rfl
    rw [e1, e2, h]

/-- Witness for C3: a concrete round where the player stands on 19 and the
dealer holds 19 — the final message carries TIE, and two suit-variants of a
hand have equal totals. -/
theorem C3_resolution_witness :
    (playRound [(2, 0)] [(10, 1), (9, 2), (10, 3), (9, 0)] [some "stand"] 0).msgs.getLast?
      = some (RESULT_TIE, 0, 72) ∧
    calculate_sum [(5, 0), (9, 1)] = calculate_sum [(5, 2), (9, 3)] := by
  constructor
  · have h := (C3_resolution.1 [(2, 0)] [(10, 1), (9, 2), (10, 3), (9, 0)] [some "stand"] 0
      "tie" (by decide) (by decide)).1
    have e : (if 21 < calculate_sum
          (playRound [(2, 0)] [(10, 1), (9, 2), (10, 3), (9, 0)] [some "stand"] 0).dcards
        then RESULT_WIN
        else if calculate_sum
            (playRound [(2, 0)] [(10, 1), (9, 2), (10, 3), (9, 0)] [some "stand"] 0).dcards
          < calculate_sum
            (playRound [(2, 0)] [(10, 1), (9, 2), (10, 3), (9, 0)] [some "stand"] 0).pcards
          then RESULT_WIN
        else if calculate_sum
            (playRound [(2, 0)] [(10, 1), (9, 2), (10, 3), (9, 0)] [some "stand"] 0).pcards
          < calculate_sum
            (playRound [(2, 0)] [(10, 1), (9, 2), (10, 3), (9, 0)] [some "stand"] 0).dcards
          then RESULT_LOSS
        else RESULT_TIE) = RESULT_TIE := by decide
    rw [e] at h
    exact h
  · exact C3_resolution.2 [(5, 0), (9, 1)] [(5, 2), (9, 3)] (by decide)

/-! ## Claim C5 -/

/-- C5: on a `"hit"` the server draws one card and recomputes the player
total over all the player's cards; if the new total exceeds 21 it sends
that card tagged `RESULT_LOSS` and the round ends at once with outcome
`"loss"` — the bust card is the last message of the whole round (no hole
reveal, dealer draw or final-result message follows), the dealer hand stays
at its two dealt cards, and every earlier message was tagged
`RESULT_ROUND_NOT_OVER`; if the new total is at most 21 the card is sent
tagged `RESULT_ROUND_NOT_OVER` and the loop continues. -/
theorem C5_hit_semantics :
    (∀ (fresh deck deck' pcards : List Card) (rest : List (Option String)) (c : Card),
      calculate_sum pcards < 21 →
      drawCard fresh deck = some (c, deck') →
      (21 < calculate_sum (pcards ++ [c]) →
        playerLoop fresh (some "hit" :: rest) deck pcards
          = ⟨.bust, deck', pcards ++ [c], [msgOfCard RESULT_LOSS c], rest⟩) ∧
      (calculate_sum (pcards ++ [c]) ≤ 21 →
        playerLoop fresh (some "hit" :: rest) deck pcards
          = ⟨(playerLoop fresh rest deck' (pcards ++ [c])).status,
             (playerLoop fresh rest deck' (pcards ++ [c])).deck,
             (playerLoop fresh rest deck' (pcards ++ [c])).pcards,
             msgOfCard RESULT_ROUND_NOT_OVER c
               :: (playerLoop fresh rest deck' (pcards ++ [c])).msgs,
             (playerLoop fresh rest deck' (pcards ++ [c])).rem⟩)) ∧
    (∀ (fresh deck : List Card) (acts : List (Option String)) (fuel : Nat),
      (playRound fresh deck acts fuel).result = some "loss" →
      21 < calculate_sum (playRound fresh deck acts fuel).pcards →
      (playRound fresh deck acts fuel).dcards.length = 2 ∧
      (∃ c : Card, (playRound fresh deck acts fuel).pcards.getLast? = some c ∧
        (playRound fresh deck acts fuel).msgs.getLast?
          = some (RESULT_LOSS, c.1, SUITS.getD c.2 0)) ∧
      (∀ m ∈ (playRound fresh deck acts fuel).msgs.dropLast,
        m.1 = RESULT_ROUND_NOT_OVER)) := by
  constructor
  · intro fresh deck deck' pcards rest c h hd
    constructor
    · intro hb
      rw [playerLoop_hit fresh rest deck deck' pcards c h hd, if_pos hb]
    · intro hb
      rw [playerLoop_hit fresh rest deck deck' pcards c h hd, if_neg (by omega)]
  · intro fresh deck acts fuel hres hgt
    cases hd4 : draw4 fresh deck with
    | none =>
      rw [playRound_draw_fail fresh deck acts fuel hd4] at hres
      simp at hres
    | some t =>
      obtain ⟨c1, c2, d1, d2, deck1⟩ := t
      cases hst : (playerLoop fresh acts deck1 [c1, c2]).status with
      | aborted =>
        rw [playRound_aborted fresh deck acts fuel c1 c2 d1 d2 deck1 hd4 hst] at hres
        simp at hres
      | toDealer =>
        by_cases hok : (dealerLoop fresh fuel
            (playerLoop fresh acts deck1 [c1, c2]).deck [d1, d2]).ok = true
        · rw [playRound_toDealer_ok fresh deck acts fuel c1 c2 d1 d2 deck1 hd4 hst hok]
            at hres hgt
          dsimp at hres hgt
          have hres' := Option.some.inj hres
          split_ifs at hres' with h1 h2 h3
          · simp at hres'
          · simp at hres'
          · omega
          · simp at hres'
        · rw [playRound_toDealer_fail fresh deck acts fuel c1 c2 d1 d2 deck1 hd4 hst hok]
            at hres
          simp at hres
      | bust =>
        obtain ⟨c, h1, h2, h3⟩ := playerLoop_bust_shape fresh acts deck1 [c1, c2] hst
        have hne : (playerLoop fresh acts deck1 [c1, c2]).msgs ≠ [] := by
          intro hnil
          rw [hnil] at h2
          simp at h2
        rw [playRound_bust fresh deck acts fuel c1 c2 d1 d2 deck1 hd4 hst]
        dsimp
        have hform : (msgOfCard RESULT_ROUND_NOT_OVER c1 :: msgOfCard RESULT_ROUND_NOT_OVER c2
              :: msgOfCard RESULT_ROUND_NOT_OVER d1 :: (playerLoop fresh acts deck1 [c1, c2]).msgs)
            = [msgOfCard RESULT_ROUND_NOT_OVER c1, msgOfCard RESULT_ROUND_NOT_OVER c2,
               msgOfCard RESULT_ROUND_NOT_OVER d1] ++ (playerLoop fresh acts deck1 [c1, c2]).msgs
          := rfl
        refine ⟨rfl, ⟨c, h1, ?_⟩, ?_⟩
        · rw [hform, List.getLast?_append_of_ne_nil _ hne]
          exact h2
        · have hd1 : (msgOfCard RESULT_ROUND_NOT_OVER d1
                :: (playerLoop fresh acts deck1 [c1, c2]).msgs).dropLast
              = msgOfCard RESULT_ROUND_NOT_OVER d1
                :: (playerLoop fresh acts deck1 [c1, c2]).msgs.dropLast := by
            cases hmm : (playerLoop fresh acts deck1 [c1, c2]).msgs with
            | nil => exact absurd hmm hne
            | cons b t => rfl
          intro m hm
          rcases List.mem_cons.mp hm with rfl | hm'
          · rfl
          rcases List.mem_cons.mp hm' with rfl | hm''
          · rfl
          rw [hd1] at hm''
          rcases List.mem_cons.mp hm'' with rfl | hm3
          · rfl
          · exact h3 m hm3

/-- Witness for C5: a hit from 15 onto a ten busts with the card tagged
LOSS, and a concrete busted round ends on the bust card with the dealer
hand untouched. -/
theorem C5_hit_semantics_witness :
    playerLoop [(2, 0)] [some "hit"] [(10, 1)] [(10, 2), (5, 3)]
      = ⟨.bust, [], [(10, 2), (5, 3), (10, 1)], [msgOfCard RESULT_LOSS (10, 1)], []⟩ ∧
    ((playRound [(2, 0)] [(10, 3), (9, 0), (5, 1), (10, 2), (9, 3)] [some "hit"] 0).dcards.length
        = 2 ∧
      (∃ c : Card,
        (playRound [(2, 0)] [(10, 3), (9, 0), (5, 1), (10, 2), (9, 3)]
          [some "hit"] 0).pcards.getLast? = some c ∧
        (playRound [(2, 0)] [(10, 3), (9, 0), (5, 1), (10, 2), (9, 3)]
          [some "hit"] 0).msgs.getLast? = some (RESULT_LOSS, c.1, SUITS.getD c.2 0)) ∧
      (∀ m ∈ (playRound [(2, 0)] [(10, 3), (9, 0), (5, 1), (10, 2), (9, 3)]
          [some "hit"] 0).msgs.dropLast, m.1 = RESULT_ROUND_NOT_OVER)) :=
  ⟨(C5_hit_semantics.1 [(2, 0)] [(10, 1)] [] [(10, 2), (5, 3)] [] (10, 1)
      (by decide) (by decide)).1 (by decide),
   C5_hit_semantics.2 [(2, 0)] [(10, 3), (9, 0), (5, 1), (10, 2), (9, 3)] [some "hit"] 0
      (by decide) (by decide)⟩

/-! ## Claim C6 -/

/-- C6: the player-turn loop solicits a client action exactly while the
running player total is strictly below 21.  At 21 or more (without a bust)
it consumes no action, sends nothing, declares nothing — no auto-stand and
no auto-win — and hands over to the dealer turn, the next message on the
wire being the hole-card reveal; below 21 the head action is consumed. -/
theorem C6_solicit_iff :
    (∀ (fresh : List Card) (acts : List (Option String)) (deck pcards : List Card),
      21 ≤ calculate_sum pcards →
      playerLoop fresh acts deck pcards = ⟨.toDealer, deck, pcards, [], acts⟩) ∧
    (∀ (fresh : List Card) (a : Option String) (rest : List (Option String))
        (deck pcards : List Card),
      calculate_sum pcards < 21 →
      (playerLoop fresh (a :: rest) deck pcards).rem.length ≤ rest.length) ∧
    (∀ (fresh rdeck : List Card) (c1 c2 d1 d2 : Card) (acts : List (Option String)) (fuel : Nat),
      21 ≤ get_card_value c1.1 + get_card_value c2.1 →
      (playRound fresh (rdeck ++ [d2, d1, c2, c1]) acts fuel).rem = acts ∧
      (playRound fresh (rdeck ++ [d2, d1, c2, c1]) acts fuel).msgs.take 4
        = [msgOfCard RESULT_ROUND_NOT_OVER c1, msgOfCard RESULT_ROUND_NOT_OVER c2,
           msgOfCard RESULT_ROUND_NOT_OVER d1, msgOfCard RESULT_ROUND_NOT_OVER d2]) := by
  refine ⟨?_, ?_, ?_⟩
  · intro fresh acts deck pcards h
    exact playerLoop_ge fresh acts deck pcards (by omega)
  · intro fresh a rest deck pcards h
    cases a with
    | none =>
      rw [playerLoop_none fresh rest deck pcards h]
    | some s =>
      by_cases hs : s = "stand"
      · subst hs
        rw [playerLoop_stand fresh rest deck pcards h]
      · by_cases hh : s = "hit"
        · subst hh
          cases hdc : drawCard fresh deck with
          | none =>
            rw [playerLoop_hit_fail fresh rest deck pcards h hdc]
          | some cd =>
            obtain ⟨c, deck'⟩ := cd
            rw [playerLoop_hit fresh rest deck deck' pcards c h hdc]
            by_cases hb : 21 < calculate_sum (pcards ++ [c])
            · rw [if_pos hb]
            · rw [if_neg hb]
              exact playerLoop_rem_le fresh rest deck' (pcards ++ [c])
        · rw [playerLoop_other fresh s rest deck pcards h hs hh]
          exact playerLoop_rem_le fresh rest deck pcards
  · intro fresh rdeck c1 c2 d1 d2 acts fuel h
    have hsum : ¬calculate_sum [c1, c2] < 21 := by
      simp only [calculate_sum, List.map_cons, List.map_nil, List.sum_cons, List.sum_nil]
      omega
    have hst : (playerLoop fresh acts rdeck [c1, c2]).status = .toDealer := by
      rw [playerLoop_ge fresh acts rdeck [c1, c2] hsum]
    have hd4 := draw4_concat fresh rdeck c1 c2 d1 d2
    by_cases hok : (dealerLoop fresh fuel
        (playerLoop fresh acts rdeck [c1, c2]).deck [d1, d2]).ok = true
    · rw [playRound_toDealer_ok fresh (rdeck ++ [d2, d1, c2, c1]) acts fuel c1 c2 d1 d2 rdeck
        hd4 hst hok]
      rw [playerLoop_ge fresh acts rdeck [c1, c2] hsum]
      exact ⟨rfl, rfl⟩
    · rw [playRound_toDealer_fail fresh (rdeck ++ [d2, d1, c2, c1]) acts fuel c1 c2 d1 d2 rdeck
        hd4 hst hok]
      rw [playerLoop_ge fresh acts rdeck [c1, c2] hsum]
      exact ⟨rfl, rfl⟩

/-- Witness for C6: a 20-point hand below 21 consumes the head action,
a 21-point deal consumes none and the hole card is the fourth message. -/
theorem C6_solicit_iff_witness :
    playerLoop [] [some "hit"] [] [(10, 0), (1, 1)]
      = ⟨.toDealer, [], [(10, 0), (1, 1)], [], [some "hit"]⟩ ∧
    (playerLoop [(2, 0)] (some "stand" :: []) [(3, 1)] [(10, 2), (5, 3)]).rem.length
      ≤ ([] : List (Option String)).length ∧
    (playRound [(2, 0)] ([] ++ [(9, 3), (5, 2), (1, 1), (10, 0)]) [some "stand"] 3).rem
      = [some "stand"] ∧
    (playRound [(2, 0)] ([] ++ [(9, 3), (5, 2), (1, 1), (10, 0)]) [some "stand"] 3).msgs.take 4
      = [msgOfCard RESULT_ROUND_NOT_OVER (10, 0), msgOfCard RESULT_ROUND_NOT_OVER (1, 1),
         msgOfCard RESULT_ROUND_NOT_OVER (5, 2), msgOfCard RESULT_ROUND_NOT_OVER (9, 3)] :=
  ⟨C6_solicit_iff.1 [] [some "hit"] [] [(10, 0), (1, 1)] (by decide),
   C6_solicit_iff.2.1 [(2, 0)] (some "stand") [] [(3, 1)] [(10, 2), (5, 3)] (by decide),
   (C6_solicit_iff.2.2 [(2, 0)] [] (10, 0) (1, 1) (5, 2) (9, 3) [some "stand"] 3
     (by decide)).1,
   (C6_solicit_iff.2.2 [(2, 0)] [] (10, 0) (1, 1) (5, 2) (9, 3) [some "stand"] 3
     (by decide)).2⟩


end ByteDealer
